import Mathlib

/-!
Shallow embedding of the Restock Cycle Analyser dashboard (src/app.py).

The program loads a CSV of delivery records, parses three time-of-day
columns with the fixed pattern "%H:%M" (unparseable values coerced to a
missing marker), derives a delay-minutes column (shelf-stock minus truck
arrival, plus 1440 when negative), normalises missing delay reasons to the
string "None", applies sidebar filters (inclusive date range, department
multi-select, delay-reason multi-select, stockout radio), stops with a
warning when the filtered frame is empty, and otherwise renders four
metrics and eight chart views.

Modelling conventions:
  - calendar dates are ordinal day indices (Nat); date parsing itself is
    assumed successful, as the load is fatal on a malformed source;
  - times of day are hour/minute pairs; pandas NaT is Option.none;
  - the float NaN produced for an uncomputable delay is Option.none on an
    Int number of minutes (all "%H:%M" differences are whole minutes);
  - percentages and means are exact rationals; the display-only rounding
    to one decimal in the UI is not modelled;
  - a chart slot renders either an st.info placeholder or a chart of its
    aggregate data, modelled by the Rendered type.
-/

namespace Restock

/-- A parsed time of day (from "%H:%M"). -/
structure Time where
  hour : Nat
  minute : Nat
deriving DecidableEq, Repr

/-- Minutes since midnight. -/
def Time.toMinutes (t : Time) : Nat := t.hour * 60 + t.minute

/-- Split a character list on a separator character (structural recursion,
so that concrete parses reduce in the kernel). -/
def splitOnChar (sep : Char) : List Char → List (List Char)
  | [] => [[]]
  | c :: rest =>
    if c = sep then [] :: splitOnChar sep rest
    else
      match splitOnChar sep rest with
      | [] => [[c]]
      | g :: gs => (c :: g) :: gs

/-- Read a run of decimal digits as a number; any non-digit fails. -/
def digitsToNatAux : List Char → Nat → Option Nat
  | [], acc => some acc
  | c :: rest, acc =>
    if c.isDigit then digitsToNatAux rest (acc * 10 + (c.toNat - 48)) else none

/-- One strptime field (%H or %M): one or two digits, value below the
bound. -/
def parseTimeField (cs : List Char) (bound : Nat) : Option Nat :=
  if cs.length = 0 ∨ 2 < cs.length then none
  else
    match digitsToNatAux cs 0 with
    | none => none
    | some n => if n < bound then some n else none

/-- pd.to_datetime(s, format="%H:%M", errors=coerce) for one cell: an
exact "HH:MM" match yields a time, anything else the missing marker. -/
def parseTime (s : String) : Option Time :=
  match splitOnChar ':' s.data with
  | [h, m] =>
    match parseTimeField h 24, parseTimeField m 60 with
    | some hh, some mm => some { hour := hh, minute := mm }
    | _, _ => none
  | _ => none

/-- A raw CSV row: Date, Truck Arrival Time, Unloading Start Time,
Shelf Stock Time, Department, Delay Reason, Stockout Observed. A missing
Delay Reason cell is Option.none. -/
structure RawRecord where
  date : Nat
  truckArrival : String
  unloadingStart : String
  shelfStock : String
  department : String
  delayReason : Option String
  stockoutObserved : String
deriving DecidableEq, Repr

/-- A loaded record after load_data: parsed times, derived delay minutes,
delay reason with the "None" sentinel filled in. -/
structure Record where
  date : Nat
  truckArrival : Option Time
  unloadingStart : Option Time
  shelfStock : Option Time
  delayMinutes : Option Int
  department : String
  delayReason : String
  stockoutObserved : String
deriving DecidableEq, Repr

/-- Delay_Minutes = (Shelf Stock Time - Truck Arrival Time) in minutes,
NaN when either operand is NaT; then 1440 is added exactly to the negative
values (the NaN rows fail the < 0 test and are left alone). -/
def computeDelay (arrival shelf : Option Time) : Option Int :=
  match arrival, shelf with
  | some a, some s =>
    some (if (s.toMinutes : Int) - (a.toMinutes : Int) < 0
          then (s.toMinutes : Int) - (a.toMinutes : Int) + 24 * 60
          else (s.toMinutes : Int) - (a.toMinutes : Int))
  | _, _ => none

/-- load_data, one row: parse the three time columns, derive
Delay_Minutes, fillna("None") on Delay Reason. -/
def loadRecord (r : RawRecord) : Record :=
  let arr := parseTime r.truckArrival
  let unl := parseTime r.unloadingStart
  let shf := parseTime r.shelfStock
  { date := r.date
    truckArrival := arr
    unloadingStart := unl
    shelfStock := shf
    delayMinutes := computeDelay arr shf
    department := r.department
    delayReason := r.delayReason.getD "None"
    stockoutObserved := r.stockoutObserved }

/-- load_data over the whole source table. -/
def load_data (rows : List RawRecord) : List Record := rows.map loadRecord

/-- The stockout radio: All, Stockout, No Stockout. -/
inductive StockoutMode where
  | all
  | stockout
  | noStockout
deriving DecidableEq, Repr

/-- The sidebar filter state: date range, selected departments, selected
delay reasons, stockout mode. -/
structure FilterSpec where
  dateStart : Nat
  dateEnd : Nat
  departments : List String
  delayReasons : List String
  stockoutMode : StockoutMode
deriving DecidableEq, Repr

/-- Date filter: Date between start_date and end_date, both inclusive. -/
def dateFilter (spec : FilterSpec) (l : List Record) : List Record :=
  l.filter (fun r => decide (spec.dateStart ≤ r.date) && decide (r.date ≤ spec.dateEnd))

/-- Department filter: applied only when the selection is non-empty
(an empty multiselect is falsy in the source and skips the mask). -/
def deptFilter (spec : FilterSpec) (l : List Record) : List Record :=
  if spec.departments = [] then l
  else l.filter (fun r => decide (r.department ∈ spec.departments))

/-- Delay-reason filter: applied only when the selection is non-empty. -/
def reasonFilter (spec : FilterSpec) (l : List Record) : List Record :=
  if spec.delayReasons = [] then l
  else l.filter (fun r => decide (r.delayReason ∈ spec.delayReasons))

/-- Stockout filter: exact match on the Yes/No flag unless mode is All. -/
def stockoutFilter (spec : FilterSpec) (l : List Record) : List Record :=
  match spec.stockoutMode with
  | .all => l
  | .stockout => l.filter (fun r => decide (r.stockoutObserved = "Yes"))
  | .noStockout => l.filter (fun r => decide (r.stockoutObserved = "No"))

/-- The filter block: the four masks applied in source order. -/
def applyFilters (spec : FilterSpec) (l : List Record) : List Record :=
  stockoutFilter spec (reasonFilter spec (deptFilter spec (dateFilter spec l)))

/-- Mean of a list of rationals; the pandas mean of an empty collection is
NaN, modelled as Option.none. -/
def meanRat (xs : List ℚ) : Option ℚ :=
  if xs = [] then none else some (xs.sum / (xs.length : ℚ))

/-- The Delay_Minutes cell of one row as a rational, none for NaN. -/
def delayVal (r : Record) : Option ℚ :=
  r.delayMinutes.map (fun d => (d : ℚ))

/-- Series.mean() on the Delay_Minutes column: pandas skips NaN cells
(skipna default) and yields NaN when no cell is numeric. -/
def avgDelay (l : List Record) : Option ℚ :=
  meanRat (l.filterMap delayVal)

/-- Keep first occurrences of each key, in first-seen order. -/
def dedup (xs : List String) : List String :=
  xs.foldl (fun acc k => if acc.contains k then acc else acc ++ [k]) []

/-- Insert into a sorted list (helper for the chart sort orders). -/
def insertSorted (le : α → α → Bool) (a : α) : List α → List α
  | [] => [a]
  | b :: t => if le a b then a :: b :: t else b :: insertSorted le a t

/-- Insertion sort by a boolean comparison (helper for the chart sort
orders; structural so that concrete charts reduce in the kernel). -/
def sortByLe (le : α → α → Bool) : List α → List α
  | [] => []
  | a :: t => insertSorted le a (sortByLe le t)

/-- String order used by pandas groupby on string keys. -/
def strLe (a b : String) : Bool := !(decide (b < a))

/-- Order on Option rationals used by Series.sort_values: NaN last. -/
def optLe (a b : Option ℚ) : Bool :=
  match a, b with
  | some x, some y => decide (x ≤ y)
  | some _, none => true
  | none, some _ => false
  | none, none => true

/-- Series.value_counts(): occurrence count per distinct value, sorted
descending by count. -/
def valueCounts (xs : List String) : List (String × Nat) :=
  sortByLe (fun a b => decide (b.2 ≤ a.2))
    ((dedup xs).map (fun k => (k, (xs.filter (fun x => decide (x = k))).length)))

/-- groupby(key)[Delay_Minutes].mean(): per-group skipna mean, keys in
sorted order (pandas groupby sorts string keys). -/
def groupMeanDelay (key : Record → String) (l : List Record) : List (String × Option ℚ) :=
  (sortByLe strLe (dedup (l.map key))).map
    (fun k => (k, avgDelay (l.filter (fun r => decide (key r = k)))))

/-- The four KPI values of the metrics block. Percentages are kept as
exact rationals; the UI-only round(..., 1) is not modelled. -/
structure Metrics where
  totalDeliveries : Nat
  delayedDeliveries : Nat
  delayPercentage : ℚ
  stockouts : Nat
  stockoutPercentage : ℚ
  avgDelayMinutes : Option ℚ
deriving DecidableEq, Repr

/-- The metrics block over the filtered frame. -/
def computeMetrics (l : List Record) : Metrics :=
  let total := l.length
  let delayed := (l.filter (fun r => decide (r.delayReason ≠ "None"))).length
  let so := (l.filter (fun r => decide (r.stockoutObserved = "Yes"))).length
  { totalDeliveries := total
    delayedDeliveries := delayed
    delayPercentage := (delayed : ℚ) / (total : ℚ) * 100
    stockouts := so
    stockoutPercentage := (so : ℚ) / (total : ℚ) * 100
    avgDelayMinutes := avgDelay l }

/-- What one chart slot shows: an st.info placeholder or a chart over its
aggregate data. -/
inductive Rendered (α : Type) where
  | info
  | chart (data : α)
deriving DecidableEq, Repr

/-- delay_data: the filtered rows whose Delay Reason is not "None". -/
def delayData (l : List Record) : List Record :=
  l.filter (fun r => decide (r.delayReason ≠ "None"))

/-- Tab 1, left: frequency of delay reasons (value_counts, descending),
guarded by len(delay_data) > 0, otherwise an st.info placeholder. -/
def renderDelayReasonFrequency (l : List Record) : Rendered (List (String × Nat)) :=
  let dd := delayData l
  if 0 < dd.length then .chart (valueCounts (dd.map (fun r => r.delayReason)))
  else .info

/-- Tab 1, right: mean delay per reason over the whole filtered frame
(including "None"), sort_values ascending; guarded by the same
len(delay_data) > 0 test. -/
def renderAvgDelayByReason (l : List Record) : Rendered (List (String × Option ℚ)) :=
  if 0 < (delayData l).length then
    .chart (sortByLe (fun a b => optLe a.2 b.2) (groupMeanDelay (fun r => r.delayReason) l))
  else .info

/-- Tab 2, left: mean delay per department, sort_values ascending; no
emptiness guard in the source. -/
def renderAvgDelayByDept (l : List Record) : Rendered (List (String × Option ℚ)) :=
  .chart (sortByLe (fun a b => optLe a.2 b.2) (groupMeanDelay (fun r => r.department) l))

/-- Tab 2, right: departments of the stockout rows, value_counts then
sort_values ascending; no emptiness guard in the source. -/
def renderStockoutsByDept (l : List Record) : Rendered (List (String × Nat)) :=
  .chart (sortByLe (fun a b => decide (a.2 ≤ b.2))
    (valueCounts ((l.filter (fun r => decide (r.stockoutObserved = "Yes"))).map
      (fun r => r.department))))

/-- Tab 3, left: per-department stockout percentage ((x == Yes).mean() *
100), sort_values ascending; no emptiness guard in the source. -/
def renderStockoutPctByDept (l : List Record) : Rendered (List (String × ℚ)) :=
  .chart (sortByLe (fun a b => decide (a.2 ≤ b.2))
    ((sortByLe strLe (dedup (l.map (fun r => r.department)))).map (fun k =>
      let grp := l.filter (fun r => decide (r.department = k))
      (k, ((grp.filter (fun r => decide (r.stockoutObserved = "Yes"))).length : ℚ)
            / (grp.length : ℚ) * 100))))

/-- Tab 3, right: mean delay grouped by the Stockout Observed flag; no
emptiness guard in the source. -/
def renderDelayByStockout (l : List Record) : Rendered (List (String × Option ℚ)) :=
  .chart (groupMeanDelay (fun r => r.stockoutObserved) l)

/-- Daily record counts: Date.value_counts().sort_index(). -/
def dailyCounts (l : List Record) : List (Nat × Nat) :=
  (sortByLe (fun a b => decide (a ≤ b))
      ((l.map (fun r => r.date)).foldl
        (fun acc k => if acc.contains k then acc else acc ++ [k]) [])).map
    (fun d => (d, (l.filter (fun r => decide (r.date = d))).length))

/-- np.polyfit(range(n), y, 1): exact least-squares slope and intercept. -/
def olsFit (ys : List ℚ) : ℚ × ℚ :=
  let n : ℚ := (ys.length : ℚ)
  let xs : List ℚ := (List.range ys.length).map (fun i => (i : ℚ))
  let sx := xs.sum
  let sy := ys.sum
  let sxx := (xs.map (fun x => x * x)).sum
  let sxy := ((xs.zip ys).map (fun p => p.1 * p.2)).sum
  let slope := (n * sxy - sx * sy) / (n * sxx - sx * sx)
  (slope, (sy - slope * sx) / n)

/-- Tab 4, left: daily truck volume in date order, with a linear trend
line only when there is more than one day; no emptiness guard. -/
def renderDailyVolume (l : List Record) : Rendered (List (Nat × Nat) × Option (ℚ × ℚ)) :=
  let dc := dailyCounts l
  .chart (dc, if 1 < dc.length then some (olsFit (dc.map (fun p => (p.2 : ℚ)))) else none)

/-- The fixed Monday-first weekday ordering used by the reindex. -/
def dayOrder : List String :=
  ["Monday", "Tuesday", "Wednesday", "Thursday", "Friday", "Saturday", "Sunday"]

/-- Weekday name of an ordinal date (day 0 taken to be a Monday). -/
def dayName (d : Nat) : String := dayOrder.getD (d % 7) "Monday"

/-- Tab 4, right: mean delay per weekday name, reindexed into the fixed
Monday-Sunday order (absent weekdays are NaN gaps); no emptiness guard. -/
def renderAvgDelayByDayOfWeek (l : List Record) : Rendered (List (String × Option ℚ)) :=
  .chart (dayOrder.map (fun day =>
    (day, avgDelay (l.filter (fun r => decide (dayName r.date = day))))))

/-- Everything the page renders below the empty-frame guard: the metric
cards and the eight chart slots. -/
structure Dashboard where
  metrics : Metrics
  delayReasonFrequencyView : Rendered (List (String × Nat))
  avgDelayByReasonView : Rendered (List (String × Option ℚ))
  avgDelayByDeptView : Rendered (List (String × Option ℚ))
  stockoutsByDeptView : Rendered (List (String × Nat))
  stockoutPctByDeptView : Rendered (List (String × ℚ))
  delayByStockoutView : Rendered (List (String × Option ℚ))
  dailyVolumeView : Rendered (List (Nat × Nat) × Option (ℚ × ℚ))
  avgDelayByDayOfWeekView : Rendered (List (String × Option ℚ))
deriving DecidableEq, Repr

/-- The page tail after the filter block: when the filtered frame is
empty the app emits one st.warning and st.stop()s, so nothing below is
computed; otherwise it computes the metrics and all chart slots. -/
def renderPage (l : List Record) : Option Dashboard :=
  if l.length = 0 then none
  else some
    { metrics := computeMetrics l
      delayReasonFrequencyView := renderDelayReasonFrequency l
      avgDelayByReasonView := renderAvgDelayByReason l
      avgDelayByDeptView := renderAvgDelayByDept l
      stockoutsByDeptView := renderStockoutsByDept l
      stockoutPctByDeptView := renderStockoutPctByDept l
      delayByStockoutView := renderDelayByStockout l
      dailyVolumeView := renderDailyVolume l
      avgDelayByDayOfWeekView := renderAvgDelayByDayOfWeek l }

/-- Spec scenario A: arrival 08:00, shelf stock 08:45. -/
def scenarioA : RawRecord :=
  { date := 0, truckArrival := "08:00", unloadingStart := "08:15", shelfStock := "08:45"
    department := "Dairy", delayReason := some "Traffic", stockoutObserved := "No" }

/-- Spec scenario B: arrival 23:50, shelf stock 00:10 (midnight wrap). -/
def scenarioB : RawRecord :=
  { date := 0, truckArrival := "23:50", unloadingStart := "23:55", shelfStock := "00:10"
    department := "Produce", delayReason := none, stockoutObserved := "Yes" }

/-- A row whose Truck Arrival Time cell does not match "%H:%M". -/
def badArrivalRow : RawRecord :=
  { date := 3, truckArrival := "n/a", unloadingStart := "08:15", shelfStock := "08:45"
    department := "Bakery", delayReason := none, stockoutObserved := "No" }

/-- A row whose Unloading Start Time cell does not match "%H:%M" while
both the arrival and shelf-stock cells parse. -/
def badUnloadRow : RawRecord :=
  { date := 4, truckArrival := "08:00", unloadingStart := "soon", shelfStock := "08:45"
    department := "Bakery", delayReason := some "Staffing", stockoutObserved := "No" }

/-- digitsToNatAux only accepts digit runs. -/
theorem parseTimeField_lt (cs : List Char) (b n : Nat)
    (h : parseTimeField cs b = some n) : n < b := by
  unfold parseTimeField at h
  split at h
  · exact absurd h (by simp)
  · rcases hd : digitsToNatAux cs 0 with _ | m
    · rw [hd] at h; exact absurd h (by simp)
    · rw [hd] at h
      by_cases hm : m < b
      · simp [hm] at h; omega
      · simp [hm] at h

/-- A successfully parsed time has its hour below 24 and minute below
60, hence fewer than 1440 minutes since midnight. -/
theorem parseTime_bounds (s : String) (t : Time)
    (h : parseTime s = some t) : t.hour < 24 ∧ t.minute < 60 := by
  unfold parseTime at h
  split at h
  case _ hh mm _ =>
    rcases h1 : parseTimeField hh 24 with _ | a
    · rw [h1] at h; exact absurd h (by simp)
    · rcases h2 : parseTimeField mm 60 with _ | b
      · rw [h1, h2] at h; exact absurd h (by simp)
      · rw [h1, h2] at h
        simp only [Option.some.injEq] at h
        subst h
        exact ⟨parseTimeField_lt hh 24 a h1, parseTimeField_lt mm 60 b h2⟩
  case _ => exact absurd h (by simp)

/-- Minutes-since-midnight bound for parsed times. -/
theorem parseTime_toMinutes_lt (s : String) (t : Time)
    (h : parseTime s = some t) : t.toMinutes < 1440 := by
  have := parseTime_bounds s t h
  unfold Time.toMinutes
  omega

/-- C1: for every record whose truck-arrival and shelf-stock times both
parse, the derived delay-minutes value is the signed difference
(shelf stock minus arrival) in minutes, with 1440 added exactly when that
raw difference is negative; scenario A (08:00 to 08:45) yields 45 and
scenario B (23:50 to 00:10) yields 20. -/
theorem delayMinutes_spec :
    (∀ (r : RawRecord) (a s : Time),
        parseTime r.truckArrival = some a →
        parseTime r.shelfStock = some s →
        (loadRecord r).delayMinutes =
          some (if (s.toMinutes : Int) - (a.toMinutes : Int) < 0
                then (s.toMinutes : Int) - (a.toMinutes : Int) + 1440
                else (s.toMinutes : Int) - (a.toMinutes : Int))) ∧
    (loadRecord scenarioA).delayMinutes = some 45 ∧
    (loadRecord scenarioB).delayMinutes = some 20 := by
  refine ⟨?_, by decide, by decide⟩
  intro r a s ha hs
  simp only [loadRecord, computeDelay, ha, hs]
  norm_num

/-- Witness for C1: the theorem applied to scenario A with its two
concrete parsed times. -/
theorem delayMinutes_spec_witness :
    (loadRecord scenarioA).delayMinutes =
      some (if ((Time.mk 8 45).toMinutes : Int) - ((Time.mk 8 0).toMinutes : Int) < 0
            then ((Time.mk 8 45).toMinutes : Int) - ((Time.mk 8 0).toMinutes : Int) + 1440
            else ((Time.mk 8 45).toMinutes : Int) - ((Time.mk 8 0).toMinutes : Int)) :=
  delayMinutes_spec.1 scenarioA (Time.mk 8 0) (Time.mk 8 45) (by decide) (by decide)

/-- C4 counterexample: a loaded record whose arrival time cell is
unparseable has a missing delay-minutes value, so no nonnegative delay
value exists for it; the claim quantifies over every loaded record. -/
theorem delayNonneg_counterexample :
    loadRecord badArrivalRow ∈ load_data [badArrivalRow] ∧
    (loadRecord badArrivalRow).delayMinutes = none ∧
    ¬ ∃ d : Int, (loadRecord badArrivalRow).delayMinutes = some d ∧ 0 ≤ d := by
  have hnone : (loadRecord badArrivalRow).delayMinutes = none := by decide
  refine ⟨by simp [load_data], hnone, ?_⟩
  rintro ⟨d, hd, -⟩
  rw [hnone] at hd
  exact Option.noConfusion hd

/-- C4 (amended): every loaded record whose delay-minutes value is
present has a nonnegative value. -/
theorem delay_nonneg_when_present (rows : List RawRecord) (r : Record) (d : Int)
    (hmem : r ∈ load_data rows) (hd : r.delayMinutes = some d) : 0 ≤ d := by
  obtain ⟨raw, -, rfl⟩ := List.mem_map.1 hmem
  simp only [loadRecord] at hd
  rcases harr : parseTime raw.truckArrival with _ | a <;>
    rcases hshf : parseTime raw.shelfStock with _ | s <;>
      rw [harr, hshf] at hd <;> simp only [computeDelay] at hd
  · exact absurd hd (by simp)
  · exact absurd hd (by simp)
  · exact absurd hd (by simp)
  · have ha := parseTime_toMinutes_lt _ _ harr
    have hs := parseTime_toMinutes_lt _ _ hshf
    simp only [Option.some.injEq] at hd
    subst hd
    split <;> omega

/-- Witness for C4 (amended): scenario A loads with delay 45, and the
theorem yields its nonnegativity. -/
theorem delay_nonneg_witness :
    loadRecord scenarioA ∈ load_data [scenarioA] ∧
    (loadRecord scenarioA).delayMinutes = some 45 ∧ (0 : Int) ≤ 45 :=
  ⟨by simp [load_data], by decide,
    delay_nonneg_when_present [scenarioA] (loadRecord scenarioA) 45
      (by simp [load_data]) (by decide)⟩

/-- C6: after loading, the delay-reason attribute is a concrete string
(type-level in this embedding): a missing source value becomes the
sentinel "None", a present value is kept, and every loaded record arises
from a source row this way. -/
theorem delayReason_normalised :
    (∀ raw : RawRecord, raw.delayReason = none → (loadRecord raw).delayReason = "None") ∧
    (∀ (raw : RawRecord) (s : String),
        raw.delayReason = some s → (loadRecord raw).delayReason = s) ∧
    (∀ (rows : List RawRecord) (r : Record),
        r ∈ load_data rows → ∃ raw ∈ rows, r = loadRecord raw) := by
  refine ⟨?_, ?_, ?_⟩
  · intro raw h; simp [loadRecord, h]
  · intro raw s h; simp [loadRecord, h]
  · intro rows r hmem
    obtain ⟨raw, hraw, rfl⟩ := List.mem_map.1 hmem
    exact ⟨raw, hraw, rfl⟩

/-- Witness for C6: scenario B has no delay reason in the source and
loads with the sentinel "None". -/
theorem delayReason_normalised_witness :
    (loadRecord scenarioB).delayReason = "None" :=
  delayReason_normalised.1 scenarioB rfl

/-- C7 counterexample: a row whose Unloading Start Time cell is
unparseable still gets a computed delay of 45 minutes (the delay uses
only the arrival and shelf-stock columns), so an unparseable time field
does not always make the derived delay missing. -/
theorem unparseableTime_counterexample :
    parseTime badUnloadRow.unloadingStart = none ∧
    (loadRecord badUnloadRow).unloadingStart = none ∧
    (loadRecord badUnloadRow).delayMinutes = some 45 ∧
    (loadRecord badUnloadRow).delayMinutes ≠ none := by
  refine ⟨by decide, by decide, by decide, ?_⟩
  intro h
  exact absurd ((by decide : (loadRecord badUnloadRow).delayMinutes = some 45) ▸ h)
    (by simp)

/-- C7 (amended): an unparseable time cell becomes the missing marker in
its own column without failing the load, and the derived delay-minutes
value is missing whenever the unparseable field is the truck-arrival or
the shelf-stock time. -/
theorem unparseableTime_coerced (raw : RawRecord) :
    (parseTime raw.truckArrival = none → (loadRecord raw).truckArrival = none) ∧
    (parseTime raw.unloadingStart = none → (loadRecord raw).unloadingStart = none) ∧
    (parseTime raw.shelfStock = none → (loadRecord raw).shelfStock = none) ∧
    ((parseTime raw.truckArrival = none ∨ parseTime raw.shelfStock = none) →
      (loadRecord raw).delayMinutes = none) := by
  refine ⟨fun h => by simp [loadRecord, h], fun h => by simp [loadRecord, h],
    fun h => by simp [loadRecord, h], ?_⟩
  rintro (h | h)
  · rcases hs : parseTime raw.shelfStock with _ | s <;>
      simp [loadRecord, computeDelay, h, hs]
  · rcases ha : parseTime raw.truckArrival with _ | a <;>
      simp [loadRecord, computeDelay, h, ha]

/-- Witness for C7 (amended): the row with the unparseable arrival cell
loads with a missing arrival time and a missing delay. -/
theorem unparseableTime_coerced_witness :
    (loadRecord badArrivalRow).truckArrival = none ∧
    (loadRecord badArrivalRow).delayMinutes = none :=
  ⟨(unparseableTime_coerced badArrivalRow).1 (by decide),
    (unparseableTime_coerced badArrivalRow).2.2.2 (Or.inl (by decide))⟩

/-- Membership in the date mask. -/
theorem mem_dateFilter (spec : FilterSpec) (l : List Record) (r : Record) :
    r ∈ dateFilter spec l ↔
      r ∈ l ∧ spec.dateStart ≤ r.date ∧ r.date ≤ spec.dateEnd := by
  simp [dateFilter, List.mem_filter]

/-- Membership in the department mask. -/
theorem mem_deptFilter (spec : FilterSpec) (l : List Record) (r : Record)
    (h : r ∈ deptFilter spec l) :
    r ∈ l ∧ (spec.departments ≠ [] → r.department ∈ spec.departments) := by
  by_cases hd : spec.departments = []
  · unfold deptFilter at h
    rw [if_pos hd] at h
    exact ⟨h, fun hne => absurd hd hne⟩
  · unfold deptFilter at h
    rw [if_neg hd, List.mem_filter] at h
    exact ⟨h.1, fun _ => by simpa using h.2⟩

/-- Membership in the delay-reason mask. -/
theorem mem_reasonFilter (spec : FilterSpec) (l : List Record) (r : Record)
    (h : r ∈ reasonFilter spec l) :
    r ∈ l ∧ (spec.delayReasons ≠ [] → r.delayReason ∈ spec.delayReasons) := by
  by_cases hd : spec.delayReasons = []
  · unfold reasonFilter at h
    rw [if_pos hd] at h
    exact ⟨h, fun hne => absurd hd hne⟩
  · unfold reasonFilter at h
    rw [if_neg hd, List.mem_filter] at h
    exact ⟨h.1, fun _ => by simpa using h.2⟩

/-- Membership in the stockout mask. -/
theorem mem_stockoutFilter (spec : FilterSpec) (l : List Record) (r : Record)
    (h : r ∈ stockoutFilter spec l) :
    r ∈ l ∧ (spec.stockoutMode = .stockout → r.stockoutObserved = "Yes") ∧
      (spec.stockoutMode = .noStockout → r.stockoutObserved = "No") := by
  rcases hm : spec.stockoutMode
  · unfold stockoutFilter at h
    rw [hm] at h
    exact ⟨h, by simp [hm], by simp [hm]⟩
  · unfold stockoutFilter at h
    rw [hm] at h
    rw [List.mem_filter] at h
    exact ⟨h.1, fun _ => by simpa using h.2, by simp [hm]⟩
  · unfold stockoutFilter at h
    rw [hm] at h
    rw [List.mem_filter] at h
    exact ⟨h.1, by simp [hm], fun _ => by simpa using h.2⟩

/-- C2: the filtered result is a subset of the full record set, and each
of its records satisfies every active predicate: date in the inclusive
range, department in the selection when one is active (non-empty),
delay reason in the selection when one is active, and the stockout flag
matching the mode when it is not All. -/
theorem filter_subset_sound (full : List Record) (spec : FilterSpec) (r : Record)
    (h : r ∈ applyFilters spec full) :
    r ∈ full ∧
    (spec.dateStart ≤ r.date ∧ r.date ≤ spec.dateEnd) ∧
    (spec.departments ≠ [] → r.department ∈ spec.departments) ∧
    (spec.delayReasons ≠ [] → r.delayReason ∈ spec.delayReasons) ∧
    (spec.stockoutMode = .stockout → r.stockoutObserved = "Yes") ∧
    (spec.stockoutMode = .noStockout → r.stockoutObserved = "No") := by
  unfold applyFilters at h
  have h1 := mem_stockoutFilter spec _ r h
  have h2 := mem_reasonFilter spec _ r h1.1
  have h3 := mem_deptFilter spec _ r h2.1
  have h4 := (mem_dateFilter spec full r).1 h3.1
  exact ⟨h4.1, h4.2, h3.2, h2.2, h1.2.1, h1.2.2⟩

/-- Three loaded sample rows used to instantiate the filter theorems. -/
def sampleRecords : List Record := load_data [scenarioA, scenarioB, badArrivalRow]

/-- A sample filter state with every dimension active. -/
def sampleSpec : FilterSpec :=
  { dateStart := 0, dateEnd := 10, departments := ["Dairy", "Produce"]
    delayReasons := ["Traffic", "None"], stockoutMode := .noStockout }

/-- Witness for C2: scenario A's record survives the sample filter and
the theorem places it back in the full set with its date in range. -/
theorem filter_subset_sound_witness :
    loadRecord scenarioA ∈ sampleRecords ∧
    sampleSpec.dateStart ≤ (loadRecord scenarioA).date :=
  ⟨(filter_subset_sound sampleRecords sampleSpec (loadRecord scenarioA) (by decide)).1,
    (filter_subset_sound sampleRecords sampleSpec (loadRecord scenarioA) (by decide)).2.1.1⟩

/-- The filter chain with the department mask omitted. -/
def applyFiltersNoDept (spec : FilterSpec) (l : List Record) : List Record :=
  stockoutFilter spec (reasonFilter spec (dateFilter spec l))

/-- The filter chain with the delay-reason mask omitted. -/
def applyFiltersNoReason (spec : FilterSpec) (l : List Record) : List Record :=
  stockoutFilter spec (deptFilter spec (dateFilter spec l))

/-- C5: an empty department selection (resp. delay-reason selection)
yields exactly the result of the chain with that mask omitted: empty
multi-selects are pass-through, not exclude-all. -/
theorem empty_selection_passthrough (full : List Record) (spec : FilterSpec) :
    (spec.departments = [] → applyFilters spec full = applyFiltersNoDept spec full) ∧
    (spec.delayReasons = [] → applyFilters spec full = applyFiltersNoReason spec full) := by
  constructor
  · intro h
    simp [applyFilters, applyFiltersNoDept, deptFilter, h]
  · intro h
    simp [applyFilters, applyFiltersNoReason, reasonFilter, h]

/-- A filter state whose two multi-selects are both empty. -/
def emptySelSpec : FilterSpec :=
  { dateStart := 0, dateEnd := 10, departments := []
    delayReasons := [], stockoutMode := .all }

/-- Witness for C5: with both selections empty, filtering the sample
records equals both omitted-mask chains. -/
theorem empty_selection_passthrough_witness :
    applyFilters emptySelSpec sampleRecords = applyFiltersNoDept emptySelSpec sampleRecords ∧
    applyFilters emptySelSpec sampleRecords = applyFiltersNoReason emptySelSpec sampleRecords :=
  ⟨(empty_selection_passthrough sampleRecords emptySelSpec).1 rfl,
    (empty_selection_passthrough sampleRecords emptySelSpec).2 rfl⟩

/-- Composing two masks is one mask with the conjoined predicate. -/
theorem filter_comm_and (p q : α → Bool) (l : List α) :
    (l.filter p).filter q = l.filter (fun a => p a && q a) := by
  induction l with
  | nil => rfl
  | cons a t ih =>
    by_cases hp : p a = true <;> by_cases hq : q a = true <;>
      simp [List.filter_cons, hp, hq, ih]

/-- Filtering twice by one predicate is filtering once. -/
theorem filter_idem (p : α → Bool) (l : List α) :
    (l.filter p).filter p = l.filter p := by
  induction l with
  | nil => rfl
  | cons a t ih =>
    by_cases hp : p a = true <;> simp [List.filter_cons, hp, ih]

/-- The whole filter chain is a single mask by one record predicate. -/
theorem applyFilters_exists_pred (spec : FilterSpec) :
    ∃ p : Record → Bool, ∀ l, applyFilters spec l = l.filter p := by
  obtain ⟨p2, hp2⟩ : ∃ p, ∀ l : List Record, deptFilter spec l = l.filter p := by
    by_cases hd : spec.departments = []
    · exact ⟨fun _ => true, fun l => by simp [deptFilter, hd]⟩
    · exact ⟨fun r => decide (r.department ∈ spec.departments), fun l => by
        unfold deptFilter; rw [if_neg hd]⟩
  obtain ⟨p3, hp3⟩ : ∃ p, ∀ l : List Record, reasonFilter spec l = l.filter p := by
    by_cases hr : spec.delayReasons = []
    · exact ⟨fun _ => true, fun l => by simp [reasonFilter, hr]⟩
    · exact ⟨fun r => decide (r.delayReason ∈ spec.delayReasons), fun l => by
        unfold reasonFilter; rw [if_neg hr]⟩
  obtain ⟨p4, hp4⟩ : ∃ p, ∀ l : List Record, stockoutFilter spec l = l.filter p := by
    rcases hm : spec.stockoutMode
    · exact ⟨fun _ => true, fun l => by simp [stockoutFilter, hm]⟩
    · exact ⟨fun r => decide (r.stockoutObserved = "Yes"), fun l => by
        unfold stockoutFilter; rw [hm]⟩
    · exact ⟨fun r => decide (r.stockoutObserved = "No"), fun l => by
        unfold stockoutFilter; rw [hm]⟩
  refine ⟨fun a =>
    decide (spec.dateStart ≤ a.date) && decide (a.date ≤ spec.dateEnd)
      && (p2 a && (p3 a && p4 a)), fun l => ?_⟩
  unfold applyFilters
  rw [hp2, hp3, hp4]
  unfold dateFilter
  rw [filter_comm_and, filter_comm_and, filter_comm_and]

/-- C9: the filter block is idempotent: applying it twice with the same
filter state yields the same subset as applying it once. -/
theorem applyFilters_idempotent (spec : FilterSpec) (l : List Record) :
    applyFilters spec (applyFilters spec l) = applyFilters spec l := by
  obtain ⟨p, hp⟩ := applyFilters_exists_pred spec
  rw [hp, hp, filter_idem]

/-- C3: when the filtered subset is empty the page renders nothing below
the warning (one notice, then stop), and whenever a dashboard is rendered
the subset is non-empty, the metrics are those of the subset, and the
percentage divisor total-deliveries is positive, so the percentage
divisions never divide by zero. -/
theorem empty_subset_short_circuit (full : List Record) (spec : FilterSpec) :
    (applyFilters spec full = [] → renderPage (applyFilters spec full) = none) ∧
    (∀ d : Dashboard, renderPage (applyFilters spec full) = some d →
      applyFilters spec full ≠ [] ∧
      d.metrics = computeMetrics (applyFilters spec full) ∧
      d.metrics.totalDeliveries = (applyFilters spec full).length ∧
      0 < d.metrics.totalDeliveries) := by
  constructor
  · intro h
    simp [renderPage, h]
  · intro d hd
    unfold renderPage at hd
    by_cases h : (applyFilters spec full).length = 0
    · rw [if_pos h] at hd
      exact absurd hd (by simp)
    · rw [if_neg h] at hd
      simp only [Option.some.injEq] at hd
      subst hd
      refine ⟨fun hnil => h (by rw [hnil]; rfl), rfl, rfl, ?_⟩
      show 0 < (applyFilters spec full).length
      omega

/-- A filter state selecting a department absent from the sample data. -/
def noMatchSpec : FilterSpec :=
  { dateStart := 0, dateEnd := 10, departments := ["Frozen"]
    delayReasons := [], stockoutMode := .all }

/-- Witness for C3: the sample data has no Frozen department, the filter
result is empty, and the page renders nothing. -/
theorem empty_subset_short_circuit_witness :
    renderPage (applyFilters noMatchSpec sampleRecords) = none :=
  (empty_subset_short_circuit sampleRecords noMatchSpec).1 (by decide)

/-- C8 counterexample: on an empty input subset the tab-2 average-delay-
per-department view still produces a chart (of an empty aggregate)
rather than the informational placeholder: the source guards only the
two tab-1 views. -/
theorem chart_guard_counterexample :
    renderAvgDelayByDept [] = Rendered.chart [] ∧
    renderAvgDelayByDept [] ≠ Rendered.info := by
  constructor
  · rfl
  · intro h
    exact Rendered.noConfusion ((rfl :
      renderAvgDelayByDept [] = Rendered.chart []) ▸ h)

/-- C8 (amended): only the two tab-1 delay views guard their own input:
each shows the placeholder exactly when the non-"None" delay subset is
empty; the six remaining views always produce a chart and rely on the
page-level empty-filter stop instead. -/
theorem chart_guards (l : List Record) :
    (delayData l = [] → renderDelayReasonFrequency l = Rendered.info ∧
        renderAvgDelayByReason l = Rendered.info) ∧
    (delayData l ≠ [] → (∃ d, renderDelayReasonFrequency l = Rendered.chart d) ∧
        (∃ d, renderAvgDelayByReason l = Rendered.chart d)) ∧
    (∃ d, renderAvgDelayByDept l = Rendered.chart d) ∧
    (∃ d, renderStockoutsByDept l = Rendered.chart d) ∧
    (∃ d, renderStockoutPctByDept l = Rendered.chart d) ∧
    (∃ d, renderDelayByStockout l = Rendered.chart d) ∧
    (∃ d, renderDailyVolume l = Rendered.chart d) ∧
    (∃ d, renderAvgDelayByDayOfWeek l = Rendered.chart d) := by
  refine ⟨?_, ?_, ⟨_, rfl⟩, ⟨_, rfl⟩, ⟨_, rfl⟩, ⟨_, rfl⟩, ⟨_, rfl⟩, ⟨_, rfl⟩⟩
  · intro h
    constructor <;> simp [renderDelayReasonFrequency, renderAvgDelayByReason, h]
  · intro h
    have hlen : 0 < (delayData l).length := List.length_pos.2 h
    constructor
    · refine ⟨valueCounts ((delayData l).map (fun r => r.delayReason)), ?_⟩
      simp only [renderDelayReasonFrequency]
      rw [if_pos hlen]
    · refine ⟨sortByLe (fun a b => optLe a.2 b.2)
        (groupMeanDelay (fun r => r.delayReason) l), ?_⟩
      simp only [renderAvgDelayByReason]
      rw [if_pos hlen]

/-- Witness for C8 (amended): on the empty subset both guarded views show
the placeholder. -/
theorem chart_guards_witness :
    renderDelayReasonFrequency [] = Rendered.info ∧
    renderAvgDelayByReason [] = Rendered.info :=
  (chart_guards []).1 rfl

/-- Restricting to the rows with a present delay does not change the
collected delay values. -/
theorem filterMap_delay_filter (l : List Record) :
    (l.filter (fun r => r.delayMinutes.isSome)).filterMap delayVal =
      l.filterMap delayVal := by
  induction l with
  | nil => rfl
  | cons a t ih =>
    rcases h : a.delayMinutes with _ | d
    · have hv : delayVal a = none := by simp [delayVal, h]
      simp [List.filter_cons, List.filterMap_cons, h, hv, ih]
    · have hv : delayVal a = some ((d : Int) : ℚ) := by simp [delayVal, h]
      simp [List.filter_cons, List.filterMap_cons, h, hv, ih]

/-- C10: the average-delay aggregate is the mean over only the rows whose
delay value is present (NaN rows are skipped silently); when a non-empty
subset has only missing delays the result is itself missing; and when at
least one value is present the result is the sum of the present values
over their count. Grouped mean-delay aggregates reuse avgDelay on the
group sublists, so this covers each per-group mean as well. -/
theorem avgDelay_skips_missing (l : List Record) :
    avgDelay l = avgDelay (l.filter (fun r => r.delayMinutes.isSome)) ∧
    (l ≠ [] → (∀ r ∈ l, r.delayMinutes = none) → avgDelay l = none) ∧
    (∀ xs : List ℚ, l.filterMap delayVal = xs → xs ≠ [] →
        avgDelay l = some (xs.sum / (xs.length : ℚ))) := by
  refine ⟨?_, ?_, ?_⟩
  · unfold avgDelay
    rw [filterMap_delay_filter]
  · intro hne hall
    have hnil : l.filterMap delayVal = [] := by
      rw [List.filterMap_eq_nil_iff]
      intro a ha
      rw [delayVal, hall a ha]
      rfl
    unfold avgDelay meanRat
    rw [hnil]
    rfl
  · intro xs hxs hne
    unfold avgDelay meanRat
    rw [hxs, if_neg hne]

/-- Witness for C10: a one-row subset whose only delay is missing has a
missing mean, and adding scenario A's row (45 minutes) gives mean 45/1. -/
theorem avgDelay_skips_missing_witness :
    avgDelay (load_data [badArrivalRow]) = none ∧
    avgDelay (load_data [scenarioA, badArrivalRow]) =
      some (([(45 : ℚ)]).sum / ((([(45 : ℚ)]).length : Nat) : ℚ)) :=
  ⟨(avgDelay_skips_missing (load_data [badArrivalRow])).2.1 (by decide) (by decide),
    (avgDelay_skips_missing (load_data [scenarioA, badArrivalRow])).2.2
      [(45 : ℚ)] (by decide) (by decide)⟩

end Restock
